import Mathlib

/-! Verification of the hOCRedit segmentation and accuracy engines.

The Go sources are internal/services/ocr/ocr.go, which contains the
segmentation engine twice (package ocr and package hocr, near-identical),
and the metrics package, whose implementation is not in the tree (only
its test file and its caller); the metrics definitions below are
therefore modelled from the specification.

Embedding conventions: Go `int` is modelled as `Int`; Go integer division
truncates toward zero, which is `Int.tdiv`; Go `float64` is modelled as
`ℚ`; Go slices are `List`s; the in-place `sort.Slice` is modelled by a
deterministic comparison sort over the same comparator. -/

/-- Go integer division: truncation toward zero. -/
def godiv (a b : Int) : Int := Int.tdiv a b

/-- Helper `max` from ocr.go: `if a > b { return a }; return b`. -/
def gomax (a b : Int) : Int := if a > b then a else b

/-- Helper `abs` from ocr.go: `if x < 0 { return -x }; return x`. -/
def goabs (x : Int) : Int := if x < 0 then -x else x

/-- WordBox (ocr.go): a detected word with its bounding box and
placeholder text. -/
structure WordBox where
  X : Int
  Y : Int
  Width : Int
  Height : Int
  Text : String
  deriving DecidableEq, Repr

/-- LineBox (ocr.go): a line of text containing multiple words, with the
bounding box of the entire line. -/
structure LineBox where
  Words : List WordBox
  X : Int
  Y : Int
  Width : Int
  Height : Int
  deriving DecidableEq, Repr

/-- Insertion step of the sort used to model Go's `sort.Slice`. -/
def insertBy {α : Type} (le : α → α → Bool) (x : α) : List α → List α
  | [] => [x]
  | y :: ys => if le x y then x :: y :: ys else y :: insertBy le x ys

/-- Deterministic model of Go's `sort.Slice(s, less)`: an insertion sort
with `le a b := !(less b a)`.  For a valid strict weak order this agrees
with Go's postcondition; the comparators in ocr.go are not strict weak
orders, for which Go's result is unspecified, so this fixes one
deterministic representative. -/
def sortBy {α : Type} (le : α → α → Bool) : List α → List α
  | [] => []
  | x :: xs => insertBy le x (sortBy le xs)

/-- Accumulator step of the min/max loop in mergeComponentGroup
(acc = (minX, minY, maxX, maxY)). -/
def mergeF (acc : Int × Int × Int × Int) (comp : WordBox) : Int × Int × Int × Int :=
  ( if comp.X < acc.1 then comp.X else acc.1,
    if comp.Y < acc.2.1 then comp.Y else acc.2.1,
    if comp.X + comp.Width > acc.2.2.1 then comp.X + comp.Width else acc.2.2.1,
    if comp.Y + comp.Height > acc.2.2.2 then comp.Y + comp.Height else acc.2.2.2 )

namespace OCR

/-- shouldMergeComponents, package ocr (ocr.go:436-444).  Note the
vertical-overlap test is written as a negated strict test. -/
def shouldMergeComponents (a b : WordBox) : Bool :=
  let horizontalGap := b.X - (a.X + a.Width)
  let verticalOverlap := !(decide (b.Y + b.Height < a.Y) || decide (b.Y > a.Y + a.Height))
  let maxGap := godiv (gomax a.Height b.Height) 3
  decide (horizontalGap ≥ 0) && decide (horizontalGap ≤ maxGap) && verticalOverlap

/-- mergeComponentGroup (ocr.go:447-477): union bounding box of a group.
Go reads group[0] and would panic on an empty group; that case is
unreachable from mergeNearbyComponents and is given a junk value. -/
def mergeComponentGroup : List WordBox → WordBox
  | [] => { X := 0, Y := 0, Width := 0, Height := 0, Text := "" }
  | [c] => c
  | c :: d :: rest =>
    let st := (d :: rest).foldl mergeF (c.X, c.Y, c.X + c.Width, c.Y + c.Height)
    { X := st.1, Y := st.2.1, Width := st.2.2.1 - st.1, Height := st.2.2.2 - st.2.1,
      Text := "merged_word_" ++ toString (rest.length + 2) }

/-- Loop of mergeNearbyComponents (ocr.go:411-424).  The open group is
`first :: gs` in append order; Go's `lastInGroup` is `gs.getLastD first`. -/
def mergeLoop (first : WordBox) (gs : List WordBox) : List WordBox → List WordBox
  | [] => [mergeComponentGroup (first :: gs)]
  | component :: rest =>
    if shouldMergeComponents (gs.getLastD first) component then
      mergeLoop first (gs ++ [component]) rest
    else
      mergeComponentGroup (first :: gs) :: mergeLoop component [] rest

/-- mergeNearbyComponents (ocr.go:403-433). -/
def mergeNearbyComponents : List WordBox → List WordBox
  | [] => []
  | [c] => [c]
  | c :: rest => mergeLoop c [] rest

/-- Comparator of the sort in groupWordsIntoLines (ocr.go:486-491); note
the same-line threshold uses the height of the first argument only. -/
def lessWords (wi wj : WordBox) : Bool :=
  if goabs (wi.Y - wj.Y) < godiv wi.Height 2 then decide (wi.X < wj.X) else decide (wi.Y < wj.Y)

/-- The `sort.Slice` call of groupWordsIntoLines. -/
def sortWords (ws : List WordBox) : List WordBox :=
  sortBy (fun a b => !(lessWords b a)) ws

/-- wordsOnSameLine (ocr.go:525-550).  Go computes the height sum and the
min/max of the vertical spans in one loop over the current line; the
three folds below compute the same values. -/
def wordsOnSameLine (currentLineWords : List WordBox) (newWord : WordBox) : Bool :=
  match currentLineWords with
  | [] => true
  | first :: _ =>
    let sumHeights := currentLineWords.foldl (fun acc w => acc + w.Height) 0
    let minY := currentLineWords.foldl (fun acc w => if w.Y < acc then w.Y else acc) first.Y
    let maxY := currentLineWords.foldl
      (fun acc w => if w.Y + w.Height > acc then w.Y + w.Height else acc)
      (first.Y + first.Height)
    let avgHeight := godiv sumHeights currentLineWords.length
    let tolerance := godiv avgHeight 3
    let currentLineBottom := maxY + tolerance
    let currentLineTop := minY - tolerance
    !(decide (newWord.Y + newWord.Height < currentLineTop) || decide (newWord.Y > currentLineBottom))

/-- createLineFromWords (ocr.go:553-...): a LineBox whose bbox is the
union of the member word boxes. -/
def createLineFromWords (words : List WordBox) : LineBox :=
  match words with
  | [] => { Words := [], X := 0, Y := 0, Width := 0, Height := 0 }
  | first :: rest =>
    let st := rest.foldl mergeF (first.X, first.Y, first.X + first.Width, first.Y + first.Height)
    { Words := words, X := st.1, Y := st.2.1, Width := st.2.2.1 - st.1, Height := st.2.2.2 - st.2.1 }

/-- Loop of groupWordsIntoLines (ocr.go:496-519), walking the sorted
words while maintaining the current line. -/
def groupLoop : List WordBox → List WordBox → List LineBox
  | [], currentLineWords =>
    if currentLineWords.isEmpty then [] else [createLineFromWords currentLineWords]
  | word :: rest, currentLineWords =>
    if currentLineWords.isEmpty then groupLoop rest [word]
    else if wordsOnSameLine currentLineWords word then groupLoop rest (currentLineWords ++ [word])
    else createLineFromWords currentLineWords :: groupLoop rest [word]

/-- groupWordsIntoLines (ocr.go:480-522). -/
def groupWordsIntoLines (words : List WordBox) : List LineBox :=
  match words with
  | [] => []
  | _ => groupLoop (sortWords words) []

end OCR

namespace HOCR

/-- shouldMergeComponents, package hocr (ocr.go:1419-1427).  The
vertical-overlap test is written inclusively; everything else is
identical to the ocr copy. -/
def shouldMergeComponents (a b : WordBox) : Bool :=
  let horizontalGap := b.X - (a.X + a.Width)
  let verticalOverlap := decide (b.Y + b.Height ≥ a.Y) && decide (b.Y ≤ a.Y + a.Height)
  let maxGap := godiv (gomax a.Height b.Height) 3
  decide (horizontalGap ≥ 0) && decide (horizontalGap ≤ maxGap) && verticalOverlap

/-- mergeComponentGroup, package hocr (ocr.go:1430-1460); textually
identical to the ocr copy. -/
def mergeComponentGroup : List WordBox → WordBox
  | [] => { X := 0, Y := 0, Width := 0, Height := 0, Text := "" }
  | [c] => c
  | c :: d :: rest =>
    let st := (d :: rest).foldl mergeF (c.X, c.Y, c.X + c.Width, c.Y + c.Height)
    { X := st.1, Y := st.2.1, Width := st.2.2.1 - st.1, Height := st.2.2.2 - st.2.1,
      Text := "merged_word_" ++ toString (rest.length + 2) }

/-- Loop of mergeNearbyComponents, package hocr (ocr.go:1394-1407). -/
def mergeLoop (first : WordBox) (gs : List WordBox) : List WordBox → List WordBox
  | [] => [mergeComponentGroup (first :: gs)]
  | component :: rest =>
    if shouldMergeComponents (gs.getLastD first) component then
      mergeLoop first (gs ++ [component]) rest
    else
      mergeComponentGroup (first :: gs) :: mergeLoop component [] rest

/-- mergeNearbyComponents, package hocr (ocr.go:1386-1416). -/
def mergeNearbyComponents : List WordBox → List WordBox
  | [] => []
  | [c] => [c]
  | c :: rest => mergeLoop c [] rest

/-- Comparator of the sort in groupWordsIntoLines, package hocr
(ocr.go:1469-1474); identical to the ocr copy. -/
def lessWords (wi wj : WordBox) : Bool :=
  if goabs (wi.Y - wj.Y) < godiv wi.Height 2 then decide (wi.X < wj.X) else decide (wi.Y < wj.Y)

/-- The `sort.Slice` call of groupWordsIntoLines, package hocr. -/
def sortWords (ws : List WordBox) : List WordBox :=
  sortBy (fun a b => !(lessWords b a)) ws

/-- wordsOnSameLine, package hocr (ocr.go:1508-1533).  The final overlap
test is written inclusively; the rest is identical to the ocr copy. -/
def wordsOnSameLine (currentLineWords : List WordBox) (newWord : WordBox) : Bool :=
  match currentLineWords with
  | [] => true
  | first :: _ =>
    let sumHeights := currentLineWords.foldl (fun acc w => acc + w.Height) 0
    let minY := currentLineWords.foldl (fun acc w => if w.Y < acc then w.Y else acc) first.Y
    let maxY := currentLineWords.foldl
      (fun acc w => if w.Y + w.Height > acc then w.Y + w.Height else acc)
      (first.Y + first.Height)
    let avgHeight := godiv sumHeights currentLineWords.length
    let tolerance := godiv avgHeight 3
    let currentLineBottom := maxY + tolerance
    let currentLineTop := minY - tolerance
    decide (newWord.Y + newWord.Height ≥ currentLineTop) && decide (newWord.Y ≤ currentLineBottom)

/-- createLineFromWords, package hocr (ocr.go:1536-...); identical to the
ocr copy. -/
def createLineFromWords (words : List WordBox) : LineBox :=
  match words with
  | [] => { Words := [], X := 0, Y := 0, Width := 0, Height := 0 }
  | first :: rest =>
    let st := rest.foldl mergeF (first.X, first.Y, first.X + first.Width, first.Y + first.Height)
    { Words := words, X := st.1, Y := st.2.1, Width := st.2.2.1 - st.1, Height := st.2.2.2 - st.2.1 }

/-- Loop of groupWordsIntoLines, package hocr (ocr.go:1479-1502). -/
def groupLoop : List WordBox → List WordBox → List LineBox
  | [], currentLineWords =>
    if currentLineWords.isEmpty then [] else [createLineFromWords currentLineWords]
  | word :: rest, currentLineWords =>
    if currentLineWords.isEmpty then groupLoop rest [word]
    else if wordsOnSameLine currentLineWords word then groupLoop rest (currentLineWords ++ [word])
    else createLineFromWords currentLineWords :: groupLoop rest [word]

/-- groupWordsIntoLines, package hocr (ocr.go:1463-1505). -/
def groupWordsIntoLines (words : List WordBox) : List LineBox :=
  match words with
  | [] => []
  | _ => groupLoop (sortWords words) []

end HOCR

/-- isTextPixel (ocr.go:366-370 and 1349-1353), applied to the four
channel values returned by Go's color.RGBA() (16-bit range 0..65535).
The alpha value is bound to the blank identifier in Go and discarded. -/
def isTextPixel (r g b _alpha : Nat) : Bool :=
  let gray := (r + g + b) / 3
  decide (gray < 32768)

/-- isValidWordSize (ocr.go:373-380 and 1356-1363). -/
def isValidWordSize (w h imgWidth imgHeight : Int) : Bool :=
  let minWidth : Int := 8
  let minHeight : Int := 10
  let maxWidth := godiv imgWidth 2
  let maxHeight := godiv imgHeight 5
  decide (w ≥ minWidth) && decide (h ≥ minHeight) && decide (w ≤ maxWidth) && decide (h ≤ maxHeight)

/-- Abstract page image handed to findWordComponents: bounds and the
text classification of each pixel (isTextPixel composed with img.At). -/
structure GoImage where
  W : Int
  H : Int
  pix : Int → Int → Bool

/-- State threaded through floodFillComponent: the visited mask
(row-major, visited[y][x]) and the running bounding box. -/
structure FFState where
  visited : List (List Bool)
  minX : Int
  minY : Int
  maxX : Int
  maxY : Int
  deriving Repr

/-- Read visited[y][x]; used only in bounds. -/
def vget (v : List (List Bool)) (x y : Int) : Bool :=
  (v.getD y.toNat []).getD x.toNat false

/-- Set visited[y][x] to true; used only in bounds. -/
def vset (v : List (List Bool)) (x y : Int) : List (List Bool) :=
  v.set y.toNat ((v.getD y.toNat []).set x.toNat true)

/-- floodFillComponent (ocr.go:336-363 and 1319-1346).  The Go function
explores the component through direct 8-way call recursion with no
explicit work-list; the first argument models the remaining call-stack
depth (each nested call consumes one unit), which Go leaves unbounded.
The eight recursive calls follow Go's direction order
(-1,-1),(-1,0),(-1,1),(0,-1),(0,1),(1,-1),(1,0),(1,1) as (dx,dy). -/
def floodFillComponent (img : GoImage) : Nat → Int → Int → FFState → FFState
  | 0, _, _, st => st
  | depth + 1, x, y, st =>
    if x < 0 ∨ x ≥ img.W ∨ y < 0 ∨ y ≥ img.H ∨ vget st.visited x y = true ∨ img.pix x y = false
    then st
    else
      let st1 : FFState :=
        { visited := vset st.visited x y
          minX := if x < st.minX then x else st.minX
          maxX := if x > st.maxX then x else st.maxX
          minY := if y < st.minY then y else st.minY
          maxY := if y > st.maxY then y else st.maxY }
      let s1 := floodFillComponent img depth (x - 1) (y - 1) st1
      let s2 := floodFillComponent img depth (x - 1) y s1
      let s3 := floodFillComponent img depth (x - 1) (y + 1) s2
      let s4 := floodFillComponent img depth x (y - 1) s3
      let s5 := floodFillComponent img depth x (y + 1) s4
      let s6 := floodFillComponent img depth (x + 1) (y - 1) s5
      let s7 := floodFillComponent img depth (x + 1) y s6
      floodFillComponent img depth (x + 1) (y + 1) s7

/-- State of the scan loop in findWordComponents. -/
structure ScanState where
  visited : List (List Bool)
  components : List WordBox

/-- Body of the scan loop in findWordComponents (ocr.go:310-330): seed a
flood fill at every unvisited text pixel, then keep the component's
bounding box if isValidWordSize accepts it.  The depth budget W*H+1
suffices for the fill because every nested productive call marks a
previously unvisited pixel. -/
def scanStep (img : GoImage) (st : ScanState) (xy : Int × Int) : ScanState :=
  if vget st.visited xy.1 xy.2 = false ∧ img.pix xy.1 xy.2 = true then
    let ff := floodFillComponent img (img.W.toNat * img.H.toNat + 1) xy.1 xy.2
      { visited := st.visited, minX := xy.1, minY := xy.2, maxX := xy.1, maxY := xy.2 }
    let w := ff.maxX - ff.minX + 1
    let h := ff.maxY - ff.minY + 1
    if isValidWordSize w h img.W img.H then
      { visited := ff.visited
        components := st.components ++
          [{ X := ff.minX, Y := ff.minY, Width := w, Height := h,
             Text := "word_" ++ toString (st.components.length + 1) }] }
    else
      { visited := ff.visited, components := st.components }
  else
    st

/-- findWordComponents (ocr.go:297-333 and 1280-1316): row-major scan of
all pixels collecting the size-filtered connected components. -/
def findWordComponents (img : GoImage) : List WordBox :=
  let coords := (List.range img.H.toNat).flatMap
    (fun y => (List.range img.W.toNat).map (fun x => ((x : Int), (y : Int))))
  (coords.foldl (scanStep img)
    { visited := List.replicate img.H.toNat (List.replicate img.W.toNat false)
      components := [] }).components

/-- Number of visited cells in a mask. -/
def countVisited (v : List (List Bool)) : Nat :=
  (v.map (fun row => row.count true)).sum

/-- Concrete image: a 5 x 1 strip whose pixels are all text. -/
def stripImage : GoImage := { W := 5, H := 1, pix := fun _ _ => true }

/-- Initial flood-fill state for a seed at (0,0) on stripImage. -/
def stripInit : FFState :=
  { visited := [List.replicate 5 false], minX := 0, minY := 0, maxX := 0, maxY := 0 }

/-- Modelled from the spec: row update of the Levenshtein DP matrix
(spec section 4.6).  The metrics package implementation (function
levenshteinDistance) is not under src; only metrics_test.go and the
handler call are.  Given the previous matrix row tail `ptail` for the
remaining candidate elements `ys`, the entry `pPrev` diagonally above
left and the entry `nPrev` to the left, produce the rest of the next
row with unit substitution, insertion and deletion costs. -/
def levRowAux {α : Type} [DecidableEq α] (x : α) : List α → List Nat → Nat → Nat → List Nat
  | [], _, _, _ => []
  | _ :: _, [], _, _ => []
  | y :: ys, pj :: ptail, pPrev, nPrev =>
    let cost := if x = y then 0 else 1
    let nj := min (pj + 1) (min (nPrev + 1) (pPrev + cost))
    nj :: levRowAux x ys ptail pj nj

/-- Modelled from the spec: the next DP row for reference element x. -/
def levNextRow {α : Type} [DecidableEq α] (x : α) (ys : List α) (prev : List Nat) : List Nat :=
  match prev with
  | [] => []
  | p0 :: ptail => (p0 + 1) :: levRowAux x ys ptail p0 (p0 + 1)

/-- Modelled from the spec: the final row of the
(len(xs)+1) x (len(ys)+1) cost matrix; row 0 is 0..len(ys). -/
def levFinalRow {α : Type} [DecidableEq α] (xs ys : List α) : List Nat :=
  xs.foldl (fun prev x => levNextRow x ys prev) (List.range (ys.length + 1))

/-- Modelled from the spec: levenshteinDistance of the metrics package
(unweighted edit distance between two strings, spec section 4.6). -/
def levenshteinDistance (a b : String) : Nat :=
  (levFinalRow a.data b.data).getLastD 0

/-- Modelled from the spec: all rows of the DP cost matrix, row i being
the distances of the first i reference elements to every candidate
prefix. -/
def levRows {α : Type} [DecidableEq α] (xs ys : List α) : List (List Nat) :=
  xs.foldl (fun rows x => rows ++ [levNextRow x ys (rows.getLastD [])])
    [List.range (ys.length + 1)]

/-- Matrix lookup in the row list. -/
def mat (rows : List (List Nat)) (i j : Nat) : Nat := (rows.getD i []).getD j 0

/-- AlignmentResult (spec section 3): edit-operation counts recovered
from one alignment (the match count is named matched because Go's name
is a Lean keyword). -/
structure AlignmentResult where
  matched : Nat
  substitutions : Nat
  deletions : Nat
  insertions : Nat
  deriving DecidableEq, Repr

/-- Modelled from the spec: backtracking of the cost matrix from cell
(i, j) toward the origin, preferring on cost ties
match > substitution > deletion > insertion (spec section 4.6).  The
fuel is structural; i + j suffices since every step decreases i + j. -/
def backtrackAux {α : Type} [DecidableEq α] [Inhabited α] (xs ys : List α)
    (rows : List (List Nat)) : Nat → Nat → Nat → AlignmentResult → AlignmentResult
  | 0, _, _, acc => acc
  | fuel + 1, i, j, acc =>
    if i = 0 ∧ j = 0 then acc
    else if 0 < i ∧ 0 < j ∧ xs.getD (i - 1) default = ys.getD (j - 1) default ∧
        mat rows (i - 1) (j - 1) = mat rows i j then
      backtrackAux xs ys rows fuel (i - 1) (j - 1) { acc with matched := acc.matched + 1 }
    else if 0 < i ∧ 0 < j ∧ mat rows (i - 1) (j - 1) + 1 = mat rows i j then
      backtrackAux xs ys rows fuel (i - 1) (j - 1)
        { acc with substitutions := acc.substitutions + 1 }
    else if 0 < i ∧ mat rows (i - 1) j + 1 = mat rows i j then
      backtrackAux xs ys rows fuel (i - 1) j { acc with deletions := acc.deletions + 1 }
    else if 0 < j then
      backtrackAux xs ys rows fuel i (j - 1) { acc with insertions := acc.insertions + 1 }
    else acc

/-- Modelled from the spec: one generalized edit-distance alignment over
an arbitrary comparable element type (spec section 4.6). -/
def alignSequences {α : Type} [DecidableEq α] [Inhabited α] (xs ys : List α) : AlignmentResult :=
  backtrackAux xs ys (levRows xs ys) (xs.length + ys.length + 1) xs.length ys.length
    ⟨0, 0, 0, 0⟩

/-- Whitespace splitting of a character list, accumulating the current
word in reverse; empty tokens are dropped. -/
def splitWordsAux : List Char → List Char → List String
  | [], acc => if acc.isEmpty then [] else [String.mk acc.reverse]
  | c :: cs, acc =>
    if c.isWhitespace then
      if acc.isEmpty then splitWordsAux cs [] else String.mk acc.reverse :: splitWordsAux cs []
    else splitWordsAux cs (c :: acc)

/-- Modelled from the spec: whitespace tokenization of the accuracy
scorer (spec section 4.7). -/
def tokenizeWords (s : String) : List String := splitWordsAux s.data []

/-- AccuracyMetrics (spec sections 3 and 6); float64 fields are modelled
as rationals. -/
structure AccuracyMetrics where
  characterSimilarity : ℚ
  wordSimilarity : ℚ
  wordAccuracy : ℚ
  wordErrorRate : ℚ
  totalWordsOriginal : Nat
  totalWordsTranscribed : Nat
  correctWords : Nat
  substitutions : Nat
  deletions : Nat
  insertions : Nat
  deriving DecidableEq, Repr

/-- Clamp to [0,1] (spec sections 4.6-4.7). -/
def clamp01 (q : ℚ) : ℚ := max 0 (min 1 q)

/-- Modelled from the spec: CalculateAccuracyMetrics of the metrics
package (spec section 4.7), combining the character-level distance and
the word-level alignment into the final metrics record. -/
def CalculateAccuracyMetrics (original corrected : String) : AccuracyMetrics :=
  let charDist := levenshteinDistance original corrected
  let charSim := clamp01 (1 - (charDist : ℚ) / ((max 1 original.length : Nat) : ℚ))
  let originalWords := tokenizeWords original
  let correctedWords := tokenizeWords corrected
  let al := alignSequences originalWords correctedWords
  let denom : ℚ := ((max 1 originalWords.length : Nat) : ℚ)
  let wer := (((al.substitutions + al.deletions + al.insertions : Nat)) : ℚ) / denom
  { characterSimilarity := charSim
    wordSimilarity := clamp01 (1 - wer)
    wordAccuracy := (al.matched : ℚ) / denom
    wordErrorRate := wer
    totalWordsOriginal := originalWords.length
    totalWordsTranscribed := correctedWords.length
    correctWords := al.matched
    substitutions := al.substitutions
    deletions := al.deletions
    insertions := al.insertions }

/-- Whether a word list is in non-decreasing X order (the left-to-right
order claimed for line members). -/
def xOrdered : List WordBox → Bool
  | [] => true
  | [_] => true
  | a :: b :: rest => decide (a.X ≤ b.X) && xOrdered (b :: rest)

/-- Concrete component: the open group's last member in the merge
counterexample. -/
def mergeA : WordBox := { X := 0, Y := 0, Width := 10, Height := 12, Text := "a" }

/-- Concrete candidate: vertically overlapping mergeA but 20px away
horizontally (gap condition fails, overlap condition holds). -/
def mergeB : WordBox := { X := 30, Y := 0, Width := 10, Height := 12, Text := "b" }

/-- Concrete word at x=100, y=0: sorted before wordLeft because their
vertical distance 6 is at least half its height. -/
def wordRight : WordBox := { X := 100, Y := 0, Width := 10, Height := 10, Text := "a" }

/-- Concrete word at x=0, y=6: joins the same line as wordRight under the
avgHeight/3 tolerance, out of X order. -/
def wordLeft : WordBox := { X := 0, Y := 6, Width := 10, Height := 10, Text := "b" }

/-! Helper lemmas. -/

theorem insertBy_perm {α : Type} (le : α → α → Bool) (x : α) (l : List α) :
    (insertBy le x l).Perm (x :: l) := by
  induction l with
  | nil => simp [insertBy]
  | cons y ys ih =>
    simp only [insertBy]
    by_cases h : le x y
    · simp [h]
    · simp only [if_neg h]
      exact (ih.cons y).trans (List.Perm.swap x y ys)

theorem sortBy_perm {α : Type} (le : α → α → Bool) (l : List α) : (sortBy le l).Perm l := by
  induction l with
  | nil => simp [sortBy]
  | cons x xs ih => exact (insertBy_perm le x (sortBy le xs)).trans (ih.cons x)

theorem createLineFromWords_Words (ws : List WordBox) : (OCR.createLineFromWords ws).Words = ws := by
  cases ws <;> rfl

theorem groupLoop_flatten (rest : List WordBox) :
    ∀ current : List WordBox,
      ((OCR.groupLoop rest current).map LineBox.Words).flatten = current ++ rest := by
  induction rest with
  | nil =>
    intro current
    cases current with
    | nil => simp [OCR.groupLoop]
    | cons c cs => simp [OCR.groupLoop, createLineFromWords_Words]
  | cons w rest ih =>
    intro current
    cases current with
    | nil => simpa [OCR.groupLoop] using ih [w]
    | cons c cs =>
      by_cases h : OCR.wordsOnSameLine (c :: cs) w
      · have := ih ((c :: cs) ++ [w])
        simp only [OCR.groupLoop, List.isEmpty_cons, h, if_true, Bool.false_eq_true, if_false]
        simp only [this]
        simp
      · simp only [OCR.groupLoop, List.isEmpty_cons, h, Bool.false_eq_true, if_false]
        simp [createLineFromWords_Words, ih [w]]

theorem groupWordsIntoLines_flatten_eq_sorted (ws : List WordBox) :
    ((OCR.groupWordsIntoLines ws).map LineBox.Words).flatten = OCR.sortWords ws := by
  cases ws with
  | nil => rfl
  | cons w ws' =>
    show ((OCR.groupLoop (OCR.sortWords (w :: ws')) []).map LineBox.Words).flatten = _
    rw [groupLoop_flatten]
    rfl

/-- C10: groupWordsIntoLines partitions its input without loss or
duplication; the concatenation of the Words of the returned LineBoxes is
a permutation of the input word list. -/
theorem groupWordsIntoLines_partitions (ws : List WordBox) :
    (((OCR.groupWordsIntoLines ws).map LineBox.Words).flatten).Perm ws := by
  rw [groupWordsIntoLines_flatten_eq_sorted]
  exact sortBy_perm _ ws

/-- C4 (counterexample): on the input [wordRight, wordLeft] the single
returned line contains the words with X coordinates 100 then 0, so the
line's members are not in non-decreasing X order. -/
theorem groupWordsIntoLines_not_x_ordered :
    (OCR.groupWordsIntoLines [wordRight, wordLeft]).map (fun l => l.Words.map WordBox.X) =
      [[100, 0]] ∧
    (OCR.groupWordsIntoLines [wordRight, wordLeft]).all (fun l => xOrdered l.Words) = false := by
  decide

/-- C4 (amended): within each returned LineBox the words appear in the
order of the (same-line-threshold, x) sorted sequence; concatenating the
lines' Words yields exactly the sorted word list.  Non-decreasing X
inside a line is not guaranteed (see the counterexample). -/
theorem groupWordsIntoLines_words_in_sorted_order (ws : List WordBox) :
    ((OCR.groupWordsIntoLines ws).map LineBox.Words).flatten = OCR.sortWords ws :=
  groupWordsIntoLines_flatten_eq_sorted ws

theorem notlt_or_gt (p q r s : Int) :
    (!(decide (p < q) || decide (r > s))) = (decide (p ≥ q) && decide (r ≤ s)) := by
  by_cases h1 : p < q <;> by_cases h2 : r > s
  all_goals simp [h1, h2]
  all_goals omega

theorem shouldMerge_ocr_iff (a b : WordBox) :
    OCR.shouldMergeComponents a b = true ↔
      (0 ≤ b.X - (a.X + a.Width) ∧
       b.X - (a.X + a.Width) ≤ godiv (gomax a.Height b.Height) 3 ∧
       a.Y ≤ b.Y + b.Height ∧ b.Y ≤ a.Y + a.Height) := by
  simp only [OCR.shouldMergeComponents, Bool.and_eq_true, decide_eq_true_eq,
    Bool.not_eq_true', Bool.or_eq_false_iff, decide_eq_false_iff_not, ge_iff_le]
  omega

theorem mergeLoop_step (first : WordBox) (gs : List WordBox) (b : WordBox)
    (rest : List WordBox) :
    OCR.mergeLoop first gs (b :: rest) =
      if 0 ≤ b.X - ((gs.getLastD first).X + (gs.getLastD first).Width) ∧
         b.X - ((gs.getLastD first).X + (gs.getLastD first).Width) ≤
           godiv (gomax (gs.getLastD first).Height b.Height) 3 ∧
         (gs.getLastD first).Y ≤ b.Y + b.Height ∧
         b.Y ≤ (gs.getLastD first).Y + (gs.getLastD first).Height
      then OCR.mergeLoop first (gs ++ [b]) rest
      else OCR.mergeComponentGroup (first :: gs) :: OCR.mergeLoop b [] rest := by
  have hiff := shouldMerge_ocr_iff (gs.getLastD first) b
  by_cases h : OCR.shouldMergeComponents (gs.getLastD first) b
  · rw [OCR.mergeLoop, if_pos h, if_pos (hiff.mp h)]
  · rw [OCR.mergeLoop, if_neg h, if_neg (fun hc => h (hiff.mpr hc))]

/-- C1 (counterexample): on the sorted pair [mergeA, mergeB] the open
group is closed (two boxes are returned), although the candidate mergeB
does not fail both conditions: the vertical spans overlap and only the
horizontal-gap condition fails.  This falsifies the claim that a group
is closed only when the candidate fails both conditions. -/
theorem mergeNearby_closes_on_single_failure :
    OCR.mergeNearbyComponents [mergeA, mergeB] = [mergeA, mergeB] ∧
    (mergeA.Y ≤ mergeB.Y + mergeB.Height ∧ mergeB.Y ≤ mergeA.Y + mergeA.Height) ∧
    ¬(mergeB.X - (mergeA.X + mergeA.Width) ≤ godiv (gomax mergeA.Height mergeB.Height) 3) := by
  decide

/-- C1 (amended): walking the sorted sequence, a candidate joins the open
group exactly when its horizontal gap to the group's last member lies in
[0, max(heightA, heightB)/3] and the two vertical spans overlap; the
group is closed (replaced by the union bounding box of its members) and
a new group started exactly when this conjunction fails, that is when at
least one of the two conditions fails. -/
theorem mergeNearby_join_iff_gap_and_overlap :
    (∀ (first : WordBox) (gs : List WordBox) (b : WordBox) (rest : List WordBox),
      OCR.mergeLoop first gs (b :: rest) =
        if 0 ≤ b.X - ((gs.getLastD first).X + (gs.getLastD first).Width) ∧
           b.X - ((gs.getLastD first).X + (gs.getLastD first).Width) ≤
             godiv (gomax (gs.getLastD first).Height b.Height) 3 ∧
           (gs.getLastD first).Y ≤ b.Y + b.Height ∧
           b.Y ≤ (gs.getLastD first).Y + (gs.getLastD first).Height
        then OCR.mergeLoop first (gs ++ [b]) rest
        else OCR.mergeComponentGroup (first :: gs) :: OCR.mergeLoop b [] rest) ∧
    (∀ (c : WordBox) (rest : List WordBox),
      OCR.mergeNearbyComponents (c :: rest) = OCR.mergeLoop c [] rest) := by
  refine ⟨mergeLoop_step, ?_⟩
  intro c rest
  cases rest with
  | nil => rfl
  | cons d ds => rfl

theorem shouldMerge_eq (a b : WordBox) :
    OCR.shouldMergeComponents a b = HOCR.shouldMergeComponents a b := by
  simp only [OCR.shouldMergeComponents, HOCR.shouldMergeComponents]
  rw [notlt_or_gt]

theorem wordsOnSameLine_eq (cl : List WordBox) (w : WordBox) :
    OCR.wordsOnSameLine cl w = HOCR.wordsOnSameLine cl w := by
  cases cl with
  | nil => rfl
  | cons first rest =>
    simp only [OCR.wordsOnSameLine, HOCR.wordsOnSameLine]
    rw [notlt_or_gt]

theorem mergeComponentGroup_eq (g : List WordBox) :
    OCR.mergeComponentGroup g = HOCR.mergeComponentGroup g := by
  cases g with
  | nil => rfl
  | cons c rest => cases rest <;> rfl

theorem createLineFromWords_eq (ws : List WordBox) :
    OCR.createLineFromWords ws = HOCR.createLineFromWords ws := by
  cases ws <;> rfl

theorem mergeLoop_eq (rest : List WordBox) :
    ∀ (first : WordBox) (gs : List WordBox),
      OCR.mergeLoop first gs rest = HOCR.mergeLoop first gs rest := by
  induction rest with
  | nil =>
    intro first gs
    show [OCR.mergeComponentGroup (first :: gs)] = [HOCR.mergeComponentGroup (first :: gs)]
    rw [mergeComponentGroup_eq]
  | cons b rest ih =>
    intro first gs
    show (if OCR.shouldMergeComponents (gs.getLastD first) b then
            OCR.mergeLoop first (gs ++ [b]) rest
          else OCR.mergeComponentGroup (first :: gs) :: OCR.mergeLoop b [] rest) =
         (if HOCR.shouldMergeComponents (gs.getLastD first) b then
            HOCR.mergeLoop first (gs ++ [b]) rest
          else HOCR.mergeComponentGroup (first :: gs) :: HOCR.mergeLoop b [] rest)
    rw [shouldMerge_eq]
    by_cases h : HOCR.shouldMergeComponents (gs.getLastD first) b
    · rw [if_pos h, if_pos h, ih]
    · rw [if_neg h, if_neg h, mergeComponentGroup_eq, ih]

theorem mergeNearbyComponents_eq (comps : List WordBox) :
    OCR.mergeNearbyComponents comps = HOCR.mergeNearbyComponents comps := by
  cases comps with
  | nil => rfl
  | cons c rest =>
    cases rest with
    | nil => rfl
    | cons d ds =>
      show OCR.mergeLoop c [] (d :: ds) = HOCR.mergeLoop c [] (d :: ds)
      exact mergeLoop_eq (d :: ds) c []

theorem groupLoop_eq (rest : List WordBox) :
    ∀ current : List WordBox, OCR.groupLoop rest current = HOCR.groupLoop rest current := by
  induction rest with
  | nil =>
    intro current
    show (if current.isEmpty then [] else [OCR.createLineFromWords current]) =
         (if current.isEmpty then [] else [HOCR.createLineFromWords current])
    rw [createLineFromWords_eq]
  | cons w rest ih =>
    intro current
    show (if current.isEmpty then OCR.groupLoop rest [w]
          else if OCR.wordsOnSameLine current w then OCR.groupLoop rest (current ++ [w])
          else OCR.createLineFromWords current :: OCR.groupLoop rest [w]) = _
    rw [wordsOnSameLine_eq, createLineFromWords_eq, ih, ih]
    rfl

theorem groupWordsIntoLines_eq (ws : List WordBox) :
    OCR.groupWordsIntoLines ws = HOCR.groupWordsIntoLines ws := by
  cases ws with
  | nil => rfl
  | cons w ws' =>
    show OCR.groupLoop (OCR.sortWords (w :: ws')) [] =
         HOCR.groupLoop (HOCR.sortWords (w :: ws')) []
    have hs : OCR.sortWords (w :: ws') = HOCR.sortWords (w :: ws') := rfl
    rw [hs]
    exact groupLoop_eq (HOCR.sortWords (w :: ws')) []

/-- C2 (counterexample, i.e. the negation of the claimed existential): on
every pair of word boxes the ocr-package shouldMergeComponents and the
hocr-package shouldMergeComponents agree, and on every line/word pair the
two wordsOnSameLine copies agree; the negated-strict and inclusive
vertical-overlap tests are logically equivalent, so no input
distinguishes them. -/
theorem segmentation_predicates_agree :
    (∀ a b : WordBox, OCR.shouldMergeComponents a b = HOCR.shouldMergeComponents a b) ∧
    (∀ (cl : List WordBox) (w : WordBox),
      OCR.wordsOnSameLine cl w = HOCR.wordsOnSameLine cl w) :=
  ⟨shouldMerge_eq, wordsOnSameLine_eq⟩

/-- C2 (amended): the two duplicated segmentation implementations write
their vertical-overlap tests in different syntactic polarity (negated
strict versus inclusive) but compute the same functions; the whole merge
and line-grouping passes coincide on every input. -/
theorem segmentation_copies_coincide :
    (∀ comps : List WordBox,
      OCR.mergeNearbyComponents comps = HOCR.mergeNearbyComponents comps) ∧
    (∀ ws : List WordBox, OCR.groupWordsIntoLines ws = HOCR.groupWordsIntoLines ws) :=
  ⟨mergeNearbyComponents_eq, groupWordsIntoLines_eq⟩

/-- C3 (evidence of the divergence): floodFillComponent explores a
component by direct call recursion, so the call depth it needs grows
linearly with the component size.  On the five-pixel strip a depth
budget of 5 visits all five pixels and reaches maxX = 4, while a depth
budget of 4 leaves the fifth pixel unvisited; with an explicit work-list
the required call depth would not grow with the component. -/
theorem floodFill_depth_grows_with_component :
    countVisited (floodFillComponent stripImage 5 0 0 stripInit).visited = 5 ∧
    (floodFillComponent stripImage 5 0 0 stripInit).maxX = 4 ∧
    countVisited (floodFillComponent stripImage 4 0 0 stripInit).visited = 4 ∧
    (floodFillComponent stripImage 4 0 0 stripInit).maxX = 3 := by
  decide

theorem isValidWordSize_spec (w h imgWidth imgHeight : Int) :
    isValidWordSize w h imgWidth imgHeight = true ↔
      (8 ≤ w ∧ 10 ≤ h ∧ w ≤ godiv imgWidth 2 ∧ h ≤ godiv imgHeight 5) := by
  simp only [isValidWordSize, Bool.and_eq_true, decide_eq_true_eq, ge_iff_le]
  omega

/-- C7: isValidWordSize accepts a component of width w and height h in an
image of dimensions imgWidth x imgHeight exactly when w ≥ 8, h ≥ 10,
w ≤ imgWidth/2 and h ≤ imgHeight/5 (Go integer division). -/
theorem isValidWordSize_iff_bounds (w h imgWidth imgHeight : Int) :
    isValidWordSize w h imgWidth imgHeight = true ↔
      (8 ≤ w ∧ 10 ≤ h ∧ w ≤ godiv imgWidth 2 ∧ h ≤ godiv imgHeight 5) :=
  isValidWordSize_spec w h imgWidth imgHeight

/-- C8: isTextPixel classifies a pixel as text exactly when the average
of its R, G, B channel values is below half the 16-bit channel range,
and the result does not depend on the alpha value. -/
theorem isTextPixel_spec (r g b a1 a2 : Nat) :
    isTextPixel r g b a1 = isTextPixel r g b a2 ∧
    (isTextPixel r g b a1 = true ↔ (r + g + b) / 3 < 65536 / 2) := by
  refine ⟨rfl, ?_⟩
  simp only [isTextPixel, decide_eq_true_eq]

theorem mergeF_fold_invariant (l : List WordBox) :
    ∀ acc : Int × Int × Int × Int, acc.1 < acc.2.2.1 → acc.2.1 < acc.2.2.2 →
      (l.foldl mergeF acc).1 < (l.foldl mergeF acc).2.2.1 ∧
      (l.foldl mergeF acc).2.1 < (l.foldl mergeF acc).2.2.2 := by
  induction l with
  | nil => intro acc h1 h2; exact ⟨h1, h2⟩
  | cons c cs ih =>
    intro acc h1 h2
    refine ih (mergeF acc c) ?_ ?_ <;> dsimp [mergeF] <;> split_ifs <;> omega

theorem scanStep_preserves (img : GoImage) (st : ScanState) (xy : Int × Int)
    (hinv : ∀ b ∈ st.components, 0 < b.Width ∧ 0 < b.Height) :
    ∀ b ∈ (scanStep img st xy).components, 0 < b.Width ∧ 0 < b.Height := by
  intro b hb
  dsimp only [scanStep] at hb
  split_ifs at hb with h1 h2
  · rw [List.mem_append] at hb
    rcases hb with hb | hb
    · exact hinv b hb
    · rw [List.mem_singleton] at hb
      subst hb
      have := (isValidWordSize_spec _ _ img.W img.H).mp h2
      refine ⟨?_, ?_⟩ <;> dsimp only <;> omega
  · exact hinv b hb
  · exact hinv b hb

theorem scan_foldl_preserves (img : GoImage) (coords : List (Int × Int)) :
    ∀ st : ScanState, (∀ b ∈ st.components, 0 < b.Width ∧ 0 < b.Height) →
      ∀ b ∈ (coords.foldl (scanStep img) st).components, 0 < b.Width ∧ 0 < b.Height := by
  induction coords with
  | nil => intro st h; exact h
  | cons xy coords ih =>
    intro st h
    exact ih (scanStep img st xy) (scanStep_preserves img st xy h)

/-- C9: every WordBox kept by findWordComponents has positive width and
height (its dimensions passed isValidWordSize), and mergeComponentGroup
of a non-empty group of boxes with positive dimensions again has
positive width and height. -/
theorem wordBox_dims_positive :
    (∀ img : GoImage,
      (findWordComponents img).all
        (fun b => decide (0 < b.Width) && decide (0 < b.Height)) = true) ∧
    (∀ (first : WordBox) (rest : List WordBox),
      (∀ b ∈ first :: rest, 0 < b.Width ∧ 0 < b.Height) →
      0 < (OCR.mergeComponentGroup (first :: rest)).Width ∧
      0 < (OCR.mergeComponentGroup (first :: rest)).Height) := by
  constructor
  · intro img
    rw [List.all_eq_true]
    intro b hb
    simp only [Bool.and_eq_true, decide_eq_true_eq]
    revert hb
    exact scan_foldl_preserves img _ _ (by intro b hb; cases hb) b
  · intro first rest h
    cases rest with
    | nil => exact h first (List.mem_cons_self first [])
    | cons d ds =>
      have hfirst := h first (by simp)
      have hinv := mergeF_fold_invariant (d :: ds)
        (first.X, first.Y, first.X + first.Width, first.Y + first.Height)
        (by dsimp; omega) (by dsimp; omega)
      show 0 < ((d :: ds).foldl mergeF _).2.2.1 - ((d :: ds).foldl mergeF _).1 ∧
           0 < ((d :: ds).foldl mergeF _).2.2.2 - ((d :: ds).foldl mergeF _).2.1
      omega

/-- C9 (witness): the positivity theorem applied to the concrete group
[(0,0,3x4), (1,1,3x4)], whose union box is 4x5. -/
theorem wordBox_dims_positive_witness :
    0 < (OCR.mergeComponentGroup
          [{ X := 0, Y := 0, Width := 3, Height := 4, Text := "a" },
           { X := 1, Y := 1, Width := 3, Height := 4, Text := "b" }]).Width ∧
    0 < (OCR.mergeComponentGroup
          [{ X := 0, Y := 0, Width := 3, Height := 4, Text := "a" },
           { X := 1, Y := 1, Width := 3, Height := 4, Text := "b" }]).Height :=
  wordBox_dims_positive.2
    { X := 0, Y := 0, Width := 3, Height := 4, Text := "a" }
    [{ X := 1, Y := 1, Width := 3, Height := 4, Text := "b" }]
    (by decide)

theorem foldl_levNextRow_nil (xs : List Char) :
    ∀ k : Nat, xs.foldl (fun prev x => levNextRow x ([] : List Char) prev) [k] =
      [k + xs.length] := by
  induction xs with
  | nil => intro k; simp
  | cons x xs ih =>
    intro k
    show xs.foldl _ (levNextRow x ([] : List Char) [k]) = _
    rw [show levNextRow x ([] : List Char) [k] = [k + 1] from rfl, ih (k + 1)]
    congr 1
    simp only [List.length_cons]
    omega

theorem levenshtein_right_empty (s : String) : levenshteinDistance s "" = s.length := by
  show (levFinalRow s.data ([] : List Char)).getLastD 0 = s.length
  show (s.data.foldl (fun prev x => levNextRow x ([] : List Char) prev) [0]).getLastD 0 = _
  rw [foldl_levNextRow_nil s.data 0]
  show 0 + s.data.length = s.length
  exact Nat.zero_add s.data.length

theorem levenshtein_left_empty (s : String) : levenshteinDistance "" s = s.length := by
  show (levFinalRow ([] : List Char) s.data).getLastD 0 = s.length
  show (List.range (s.data.length + 1)).getLastD 0 = s.length
  rw [List.range_succ, List.getLastD_concat]
  rfl

/-- C5: the edit-distance engine reproduces the spec's literal vectors
and satisfies the base cases distance(s, "") = len(s) and
distance("", s) = len(s) for every string s. -/
theorem levenshtein_vectors_and_base_cases :
    levenshteinDistance "kitten" "sitting" = 3 ∧
    levenshteinDistance "flaw" "lawn" = 2 ∧
    levenshteinDistance "gumbo" "gambol" = 2 ∧
    levenshteinDistance "abc" "yabd" = 2 ∧
    levenshteinDistance "intention" "execution" = 5 ∧
    levenshteinDistance "distance" "difference" = 5 ∧
    levenshteinDistance "Saturday" "Sunday" = 3 ∧
    levenshteinDistance "abc" "abcdef" = 3 ∧
    (∀ s : String, levenshteinDistance s "" = s.length) ∧
    (∀ s : String, levenshteinDistance "" s = s.length) :=
  ⟨by decide, by decide, by decide, by decide, by decide, by decide, by decide, by decide,
   levenshtein_right_empty, levenshtein_left_empty⟩

/-- C6: the accuracy scorer derives word accuracy as matched words over
max(1, reference word count), word error rate as
(substitutions + deletions + insertions) over max(1, reference word
count), and word similarity as 1 minus the word error rate clamped to
[0,1]; the guarded denominator is positive, so the metrics are defined
even on an empty reference text, as the concrete empty-reference
instance shows. -/
theorem accuracy_metric_derivation :
    (∀ o c : String,
      (CalculateAccuracyMetrics o c).wordAccuracy =
        ((alignSequences (tokenizeWords o) (tokenizeWords c)).matched : ℚ) /
          ((max 1 (tokenizeWords o).length : Nat) : ℚ) ∧
      (CalculateAccuracyMetrics o c).wordErrorRate =
        (((alignSequences (tokenizeWords o) (tokenizeWords c)).substitutions +
          (alignSequences (tokenizeWords o) (tokenizeWords c)).deletions +
          (alignSequences (tokenizeWords o) (tokenizeWords c)).insertions : Nat) : ℚ) /
          ((max 1 (tokenizeWords o).length : Nat) : ℚ) ∧
      (CalculateAccuracyMetrics o c).wordSimilarity =
        max 0 (min 1 (1 - (CalculateAccuracyMetrics o c).wordErrorRate)) ∧
      (0 : ℚ) < ((max 1 (tokenizeWords o).length : Nat) : ℚ)) ∧
    (CalculateAccuracyMetrics "" "hello world").wordAccuracy = 0 ∧
    (CalculateAccuracyMetrics "" "hello world").wordErrorRate = 2 ∧
    (CalculateAccuracyMetrics "" "hello world").wordSimilarity = 0 := by
  have hal : alignSequences (tokenizeWords "") (tokenizeWords "hello world") =
      ⟨0, 0, 0, 2⟩ := by decide
  have hlen : max 1 (tokenizeWords "").length = 1 := by decide
  refine ⟨fun o c => ⟨rfl, rfl, rfl, ?_⟩, ?_, ?_, ?_⟩
  · rw [Nat.cast_pos]
    omega
  · show ((alignSequences (tokenizeWords "") (tokenizeWords "hello world")).matched : ℚ) /
        ((max 1 (tokenizeWords "").length : Nat) : ℚ) = 0
    rw [hal, hlen]
    norm_num
  · show (((alignSequences (tokenizeWords "") (tokenizeWords "hello world")).substitutions +
        (alignSequences (tokenizeWords "") (tokenizeWords "hello world")).deletions +
        (alignSequences (tokenizeWords "") (tokenizeWords "hello world")).insertions : Nat) : ℚ) /
        ((max 1 (tokenizeWords "").length : Nat) : ℚ) = 2
    rw [hal, hlen]
    norm_num
  · show max 0 (min 1 (1 -
        (((alignSequences (tokenizeWords "") (tokenizeWords "hello world")).substitutions +
          (alignSequences (tokenizeWords "") (tokenizeWords "hello world")).deletions +
          (alignSequences (tokenizeWords "") (tokenizeWords "hello world")).insertions : Nat) : ℚ) /
          ((max 1 (tokenizeWords "").length : Nat) : ℚ))) = 0
    rw [hal, hlen]
    norm_num
